import Mathlib

/-!
Verification development for the Tradix ERP supplier-quote storage layer and
the customer list route.

The TypeScript source is embedded shallowly:

* database tables become lists of records (`DB`),
* Drizzle query combinators (`eq`, `gte`, `lte`, `where`, `leftJoin`,
  `limit 1`) become list operations with SQL `NULL` semantics expressed
  through `Option`,
* JavaScript value semantics (`||` on possibly-null/empty strings,
  `parseInt`, `String.prototype.includes`, `split`, `trim`,
  `toLowerCase` on ASCII data) become explicit helper functions,
* the two variants of `SupplierQuoteStorage.list` found in the repository
  (the note-derived one and the join-derived one) live in namespaces
  `VersionA` and `VersionB`.
-/

/-! ## JavaScript-semantics helpers -/

/-- JavaScript `a || b` for a possibly-null string `a`: both `null` and the
empty string are falsy. -/
def jsOr (a b : Option String) : Option String :=
  match a with
  | some s => if s = "" then b else some s
  | none => b

/-- JavaScript `a || d` where `a` is a possibly-null string and `d` a plain
string default. -/
def jsOrDefault (a : Option String) (d : String) : String :=
  match a with
  | some s => if s = "" then d else s
  | none => d

/-- Truthiness of a possibly-absent string (`if (x)`): present and non-empty. -/
def strTruthy (o : Option String) : Bool :=
  match o with
  | some s => s ≠ ""
  | none => false

/-- ASCII lower-casing of a character, the fragment of
`String.prototype.toLowerCase` exercised by this code. -/
def asciiLower (c : Char) : Char :=
  if 'A' ≤ c ∧ c ≤ 'Z' then Char.ofNat (c.toNat + 32) else c

/-- Lower-case a character list. -/
def lowerL (l : List Char) : List Char := l.map asciiLower

/-- `hay.includes(needle)` on character lists. -/
def listIncludes (needle : List Char) : List Char → Bool
  | [] => List.isPrefixOf needle []
  | c :: t => List.isPrefixOf needle (c :: t) || listIncludes needle t

/-- `hay.includes(needle)` on strings. -/
def strIncludes (hay needle : String) : Bool :=
  listIncludes needle.data hay.data

/-- JavaScript `s.split(',')` on character lists: always at least one
(possibly empty) segment. -/
def splitCommaL : List Char → List (List Char)
  | [] => [[]]
  | c :: t =>
    if c = ',' then [] :: splitCommaL t
    else
      match splitCommaL t with
      | [] => [[c]]
      | h :: r => (c :: h) :: r

/-- JavaScript `s.trim()` on character lists (ASCII whitespace). -/
def trimL (l : List Char) : List Char :=
  ((l.dropWhile Char.isWhitespace).reverse.dropWhile Char.isWhitespace).reverse

/-! ## Data model

Record shapes for the tables touched by the claims.  Fields the code
guards with optional chaining or `||` fallbacks are `Option`-valued. -/

structure Customer where
  id : String
  name : Option String
  customerName : Option String
  companyName : Option String
  fullName : Option String
  email : Option String
  phone : Option String
  address : Option String
  billingAddress : Option String
  customerType : Option String
deriving Repr, DecidableEq

structure Supplier where
  id : String
  name : Option String
  email : Option String
  phone : Option String
  address : Option String
deriving Repr, DecidableEq

structure Quotation where
  id : String
  quoteNumber : String
  customerId : Option String
  status : Option String
  validUntil : Option Nat
  notes : Option String
deriving Repr, DecidableEq

structure QuotationItem where
  id : String
  quotationId : String
deriving Repr, DecidableEq

structure SalesOrder where
  id : String
  quotationId : Option String
  customerId : Option String
deriving Repr, DecidableEq

structure CustomerAcceptance where
  id : String
  quotationId : Option String
deriving Repr, DecidableEq

structure PurchaseOrder where
  id : String
  quotationId : Option String
deriving Repr, DecidableEq

structure DB where
  quotations : List Quotation
  quotationItems : List QuotationItem
  customers : List Customer
  suppliers : List Supplier
  salesOrders : List SalesOrder
  customerAcceptances : List CustomerAcceptance
  purchaseOrders : List PurchaseOrder
deriving Repr, DecidableEq

/-! ## Shared storage operations

`hasReferences` and `delete` are byte-identical in both source variants,
so they are embedded once. -/

namespace SupplierQuoteStorage

/-- `SELECT id FROM t WHERE t.quotationId = $id LIMIT 1` existence check:
`refs.length > 0` after `limit(1)`. -/
def refHit (rows : List (Option String)) (id : String) : Bool :=
  decide (0 < ((rows.filter (fun q => q == some id)).take 1).length)

/-- Embedding of `SupplierQuoteStorage.hasReferences`: three limit-1
existence probes over sales orders, customer acceptances and purchase
orders, combined with `||`. -/
def hasReferences (id : String) (st : DB) : Bool :=
  refHit (st.salesOrders.map SalesOrder.quotationId) id ||
  refHit (st.customerAcceptances.map CustomerAcceptance.quotationId) id ||
  refHit (st.purchaseOrders.map PurchaseOrder.quotationId) id

/-- The body of the `db.transaction` callback in `delete`: remove the
quotation's line items, then the quotation row. -/
def deleteTxBody (id : String) (st : DB) : DB :=
  let st1 : DB :=
    { st with quotationItems := st.quotationItems.filter (fun it => !(it.quotationId == id)) }
  { st1 with quotations := st1.quotations.filter (fun q => !(q.id == id)) }

/-- Embedding of `SupplierQuoteStorage.delete`.  The all-or-nothing
behaviour of `db.transaction` (an external collaborator) is modelled by a
`commits` oracle: on commit the callback's final state is installed and the
success acknowledgment is returned; on abort the state is unchanged and no
acknowledgment is produced (the exception propagates). -/
def delete (id : String) (commits : Bool) (st : DB) : DB × Option String :=
  if commits then (deleteTxBody id st, some "Supplier quote deleted successfully")
  else (st, none)

end SupplierQuoteStorage

/-! ## The notes regex

Model of `/suppliers?: ([^,]+(?:, [^,]+)*)/i` applied with
`String.prototype.match`: scan left to right for the first position where
the pattern matches and return capture group 1. -/

/-- Strip a (pre-lowercased) literal pattern off the front of a text,
comparing case-insensitively; returns the rest on success. -/
def stripLitCI (pat : List Char) (l : List Char) : Option (List Char) :=
  match pat, l with
  | [], rest => some rest
  | _ :: _, [] => none
  | p :: ps, c :: cs => if asciiLower c = p then stripLitCI ps cs else none

/-- The leading maximal run of non-comma characters (`[^,]+`, greedy). -/
def takeNonComma (l : List Char) : List Char := l.takeWhile (fun c => c ≠ ',')

/-- What remains after the leading run of non-comma characters. -/
def dropNonComma (l : List Char) : List Char := l.dropWhile (fun c => c ≠ ',')

/-- Greedy `(?:, [^,]+)*`: repeatedly consume `", "` followed by a
non-empty run of non-comma characters.  `fuel` bounds the recursion; it is
called with the length of the text, and each step consumes at least three
characters. -/
def captureMore (fuel : Nat) (l : List Char) : List Char :=
  match fuel, l with
  | 0, _ => []
  | f + 1, ',' :: ' ' :: c :: rest =>
    if c = ',' then []
    else ',' :: ' ' :: (takeNonComma (c :: rest) ++
      captureMore f (dropNonComma (c :: rest)))
  | _ + 1, _ => []

/-- Capture group 1, `[^,]+(?:, [^,]+)*`, at the position right after the
literal part of the pattern; fails when `[^,]+` cannot match. -/
def captureAt (l : List Char) : Option (List Char) :=
  match l with
  | [] => none
  | c :: _ =>
    if c = ',' then none
    else some (takeNonComma l ++ captureMore l.length (dropNonComma l))

/-- One attempt of the whole pattern at a fixed position.  The greedy
optional `s?` is resolved as in a backtracking engine: when the text reads
`suppliers: ` the `s` branch succeeds; otherwise only `supplier: ` can
match, and if the literal matched but the capture group cannot, the other
branch of `s?` cannot rescue the position. -/
def matchAtPos (l : List Char) : Option (List Char) :=
  match stripLitCI "suppliers: ".data l with
  | some rest => captureAt rest
  | none =>
    match stripLitCI "supplier: ".data l with
    | some rest => captureAt rest
    | none => none

/-- Left-to-right scan of `String.prototype.match`: capture group 1 of the
first successful position. -/
def execSupplierRegex : List Char → Option (List Char)
  | [] => none
  | c :: cs =>
    match matchAtPos (c :: cs) with
    | some cap => some cap
    | none => execSupplierRegex cs

namespace VersionA

/-- The supplier object synthesized by the note-derived `list` (fields of
a supplier row, or `id = null` and the extracted name). -/
structure SupplierObj where
  id : Option String
  name : Option String
  email : Option String
  phone : Option String
  address : Option String
  customerType : String
deriving Repr, DecidableEq

/-- The customer object embedded in a list row. -/
structure CustomerObj where
  id : String
  name : Option String
  email : Option String
  phone : Option String
  address : Option String
  customerType : Option String
deriving Repr, DecidableEq

/-- `row.customer` construction: display name and address resolved by
`||` chains over the alternative fields. -/
def resolveCustomerObj (c : Customer) : CustomerObj :=
  { id := c.id
    name := jsOr (jsOr (jsOr c.name c.customerName) c.companyName) c.fullName
    email := c.email
    phone := c.phone
    address := jsOr c.address c.billingAddress
    customerType := c.customerType }

/-- A row returned by the note-derived `list` (the `...row.quotation`
spread is kept as an embedded `quotation` field). -/
structure ResultRow where
  quotation : Quotation
  supplier : Option SupplierObj
  supplierName : Option String
  customer : Option CustomerObj
  customerEmbedded : Bool
deriving Repr, DecidableEq

/-- `if (row.quotation.notes)` followed by the regex match, comma split
and trim: the list of extracted supplier names, or `none` when the notes
are absent, empty or do not contain the pattern. -/
def extractSupplierNames (notes : Option String) : Option (List String) :=
  match notes with
  | none => none
  | some ns =>
    if ns = "" then none
    else
      (execSupplierRegex ns.data).map
        (fun cap => (splitCommaL cap).map (fun seg => String.mk (trimL seg)))

/-- The fuzzy predicate of `allSuppliers.find`: case-insensitive substring
containment in either direction, with the source's optional chaining on a
possibly-null supplier name (`s.name?.toLowerCase().includes(q) ||
q.includes(s.name?.toLowerCase() || '')`). -/
def fuzzyMatches (supplierName : String) (s : Supplier) : Bool :=
  (match s.name with
   | some n => listIncludes (lowerL supplierName.data) (lowerL n.data)
   | none => false) ||
  (listIncludes
    (match s.name with
     | some n => lowerL n.data
     | none => [])
    (lowerL supplierName.data))

/-- Supplier resolution of the note-derived `list` for one quotation:
the synthesized `supplier` object and the `supplierName` value. -/
def resolveSupplier (sups : List Supplier) (notes : Option String) :
    Option SupplierObj × Option String :=
  match extractSupplierNames notes with
  | none => (none, some "Unknown Supplier")
  | some names =>
    let sname := names.headD ""
    match sups.find? (fun s => fuzzyMatches sname s) with
    | some m =>
      (some { id := some m.id, name := m.name, email := m.email, phone := m.phone,
              address := m.address, customerType := "Supplier" }, m.name)
    | none =>
      (some { id := none, name := some sname, email := none, phone := none,
              address := none, customerType := "Supplier" }, some sname)

end VersionA

/-! ## List filter parameters (shared by both versions)

The two trailing `if (params.search ...)` blocks of the source contain
only commented-out clauses, so `search` never contributes to the `where`
condition. -/

structure ListParams where
  supplier : Option String
  status : Option String
  dateFrom : Option Nat
  dateTo : Option Nat
  search : Option String
deriving Repr, DecidableEq

/-- A string filter parameter is active when present, non-empty and not
`"all"`. -/
def activeStr (o : Option String) : Option String :=
  match o with
  | some s => if s = "" ∨ s = "all" then none else some s
  | none => none

/-- The conjunction of the pushed `where` clauses, with SQL `NULL`
comparison semantics (`eq`/`gte`/`lte` against a `NULL` column is not
satisfied). -/
def quotationFilter (p : ListParams) (q : Quotation) : Bool :=
  (match activeStr p.supplier with
   | some s => q.customerId == some s
   | none => true) &&
  (match activeStr p.status with
   | some s => q.status == some s
   | none => true) &&
  (match p.dateFrom with
   | some d => match q.validUntil with
     | some v => decide (d ≤ v)
     | none => false
   | none => true) &&
  (match p.dateTo with
   | some d => match q.validUntil with
     | some v => decide (v ≤ d)
     | none => false
   | none => true)

namespace VersionA
namespace SupplierQuoteStorage

/-- Embedding of the note-derived `SupplierQuoteStorage.list`: filter the
quotations, left-join each to its requesting customer by primary key, and
resolve the supplier from the notes text against the supplier table. -/
def list (p : ListParams) (st : DB) : List ResultRow :=
  (st.quotations.filter (quotationFilter p)).map (fun q =>
    let customer := (st.customers.find? (fun c => q.customerId == some c.id)).map
      resolveCustomerObj
    let resolved := resolveSupplier st.suppliers q.notes
    { quotation := q
      supplier := resolved.1
      supplierName := resolved.2
      customer := customer
      customerEmbedded := true })

end SupplierQuoteStorage
end VersionA

namespace VersionB

/-- A row returned by the join-derived `list`: both the supplier and the
customer objects are built from aliases of the customer table. -/
structure ResultRow where
  quotation : Quotation
  supplier : Option VersionA.CustomerObj
  supplierName : Option String
  customer : Option VersionA.CustomerObj
  customerEmbedded : Bool
deriving Repr, DecidableEq

/-- The sales-order leg of the join chain: a SQL left join keeps one row
with a `NULL` right side when nothing matches, and one row per matching
sales order otherwise. -/
def joinedSalesOrders (q : Quotation) (st : DB) : List (Option SalesOrder) :=
  match st.salesOrders.filter (fun so => so.quotationId == some q.id) with
  | [] => [none]
  | l => l.map some

namespace SupplierQuoteStorage

/-- Embedding of the join-derived `SupplierQuoteStorage.list`: the
quotation's own customer id is joined (as alias `suppliers`) to the
customer table, the quotation is left-joined to its sales orders, and each
sales order's customer id to the customer table (alias `customers`).
`supplierName` is `supplier?.name || "Unknown Supplier"`. -/
def list (p : ListParams) (st : DB) : List ResultRow :=
  (st.quotations.filter (quotationFilter p)).flatMap (fun q =>
    let supplier := (st.customers.find? (fun c => q.customerId == some c.id)).map
      VersionA.resolveCustomerObj
    (joinedSalesOrders q st).map (fun so =>
      let customer := (so.bind (fun o =>
        st.customers.find? (fun c => o.customerId == some c.id))).map
        VersionA.resolveCustomerObj
      { quotation := q
        supplier := supplier
        supplierName := some (jsOrDefault (supplier.bind VersionA.CustomerObj.name)
          "Unknown Supplier")
        customer := customer
        customerEmbedded := true }))

end SupplierQuoteStorage
end VersionB

/-! ## The customer list route

`GET /api/customers` from `server/routes/customers.ts`.  The storage
functions it calls (`searchCustomers`, `getCustomerStats`, `getCustomers`,
`getCustomersCount`) are external collaborators of this route and appear
as an abstract `CustomerStorage`; the claims about the route are settled
for every such storage. -/

/-- One decimal digit. -/
def isDigitChar (c : Char) : Bool := decide ('0' ≤ c ∧ c ≤ '9')

/-- Numeric value of the leading digit run, `none` when there is none. -/
def leadingNat (l : List Char) : Option Nat :=
  match l.takeWhile isDigitChar with
  | [] => none
  | ds => some (ds.foldl (fun a c => a * 10 + (c.toNat - 48)) 0)

/-- Model of JavaScript `parseInt` on the decimal inputs this route sees:
skip leading whitespace, an optional sign, then the leading digit run;
`none` is `NaN`. -/
def jsParseInt (s : String) : Option Int :=
  match s.data.dropWhile Char.isWhitespace with
  | '-' :: rest => (leadingNat rest).map (fun n => -(n : Int))
  | '+' :: rest => (leadingNat rest).map (fun n => (n : Int))
  | l => (leadingNat l).map (fun n => (n : Int))

/-- `parseInt` applied to a possibly-absent query parameter
(`parseInt(undefined)` is `NaN`). -/
def jsParseIntOpt (o : Option String) : Option Int :=
  match o with
  | some s => jsParseInt s
  | none => none

/-- JavaScript `v || d` on a possibly-NaN number: `NaN`, `0` and `-0` are
falsy. -/
def jsOrNum (v : Option Int) (d : Int) : Int :=
  match v with
  | some n => if n = 0 then d else n
  | none => d

/-- `Math.floor(a / b)` on integer operands with `b ≠ 0`: the quotient is
exact in the float range this route sees, so the result is the
mathematical floor of the rational quotient. -/
def jsMathFloorDiv (a b : Int) : Int := ⌊(a : ℚ) / (b : ℚ)⌋

/-- `Math.ceil(total / limit)` on a natural total and a non-zero integer
limit. -/
def jsMathCeilDiv (total : Nat) (limit : Int) : Int := ⌈(total : ℚ) / (limit : ℚ)⌉

/-- The query parameters of `GET /api/customers`; `none` is an absent
parameter. -/
structure CustomersQuery where
  limit : Option String
  offset : Option String
  customerType : Option String
  classification : Option String
  isActive : Option String
  search : Option String
  name : Option String
  email : Option String
deriving Repr, DecidableEq

structure Pagination where
  page : Int
  limit : Int
  total : Nat
  pages : Int
deriving Repr, DecidableEq

structure CustomersResponse (α : Type) where
  customers : List α
  pagination : Pagination
deriving Repr, DecidableEq

/-- The storage collaborator of the route: the legacy search, the
aggregate total-customer statistic, and the general filter path. -/
structure CustomerStorage (α : Type) where
  searchCustomers : Option String → Option String → Int → Int → List α
  totalCustomersStat : Nat
  getCustomers : Int → Int → CustomersQuery → List α
  getCustomersCount : CustomersQuery → Nat

/-- Embedding of the `GET /api/customers` handler: parse `limit`/`offset`
with `|| 50` and `|| 0` fallbacks, compute `page`, and dispatch to the
legacy name/email search (total from the aggregate statistic) or to the
general filter path (total from the matching count). -/
def getCustomersHandler {α : Type} (st : CustomerStorage α) (q : CustomersQuery) :
    CustomersResponse α :=
  let limit := jsOrNum (jsParseIntOpt q.limit) 50
  let offset := jsOrNum (jsParseIntOpt q.offset) 0
  let page := jsMathFloorDiv offset limit + 1
  if strTruthy q.name || strTruthy q.email then
    let cs := st.searchCustomers q.name q.email limit offset
    let total := st.totalCustomersStat
    { customers := cs
      pagination := { page := page, limit := limit, total := total,
                      pages := jsMathCeilDiv total limit } }
  else
    let cs := st.getCustomers limit offset q
    let total := st.getCustomersCount q
    { customers := cs
      pagination := { page := page, limit := limit, total := total,
                      pages := jsMathCeilDiv total limit } }

/-- The regex capture on the Acme notes text. -/
theorem regex_acme :
    (execSupplierRegex "Suppliers: Acme Corp, Beta Inc".data).map String.mk
      = some "Acme Corp, Beta Inc" := by decide

/-- Name extraction on the Acme notes text. -/
theorem extract_acme :
    VersionA.extractSupplierNames (some "Suppliers: Acme Corp, Beta Inc")
      = some ["Acme Corp", "Beta Inc"] := by decide

/-! ## Helper lemmas -/

theorem refHit_iff (rows : List (Option String)) (id : String) :
    SupplierQuoteStorage.refHit rows id = true ↔ ∃ x ∈ rows, x = some id := by
  unfold SupplierQuoteStorage.refHit
  rw [decide_eq_true_iff, List.length_take, Nat.lt_min]
  simp [List.length_pos_iff_exists_mem, List.mem_filter]

/-- Deleting twice filters twice, which is the same as filtering once. -/
theorem deleteTxBody_idem (id : String) (st : DB) :
    SupplierQuoteStorage.deleteTxBody id (SupplierQuoteStorage.deleteTxBody id st)
      = SupplierQuoteStorage.deleteTxBody id st := by
  cases st
  simp [SupplierQuoteStorage.deleteTxBody, List.filter_filter]

/-- When neither a quotation with the id nor a line item pointing at it
exists, the transaction body is the identity. -/
theorem deleteTxBody_eq_self (id : String) (st : DB)
    (hq : ∀ q ∈ st.quotations, q.id ≠ id)
    (hit : ∀ it ∈ st.quotationItems, it.quotationId ≠ id) :
    SupplierQuoteStorage.deleteTxBody id st = st := by
  cases st with
  | mk qs its cs sups sos cas pos =>
    simp only [SupplierQuoteStorage.deleteTxBody] at *
    congr 1
    · exact List.filter_eq_self.mpr (fun q hqm => by
        simpa [Bool.not_eq_true', beq_eq_false_iff_ne] using hq q hqm)
    · exact List.filter_eq_self.mpr (fun it hitm => by
        simpa [Bool.not_eq_true', beq_eq_false_iff_ne] using hit it hitm)

/-! ## Claims -/

/-- C1: `hasReferences(id)` returns true if and only if at least one of
the sales orders, customer acceptances, or purchase orders tables contains
a row whose quotation reference equals `id`; if none does it returns
false. -/
theorem hasReferences_iff_referenced (id : String) (st : DB) :
    SupplierQuoteStorage.hasReferences id st = true ↔
      (∃ r ∈ st.salesOrders, r.quotationId = some id) ∨
      (∃ r ∈ st.customerAcceptances, r.quotationId = some id) ∨
      (∃ r ∈ st.purchaseOrders, r.quotationId = some id) := by
  simp only [SupplierQuoteStorage.hasReferences, Bool.or_eq_true, refHit_iff,
    List.mem_map]
  constructor
  · rintro ((⟨x, ⟨r, hr, hx⟩, he⟩ | ⟨x, ⟨r, hr, hx⟩, he⟩) | ⟨x, ⟨r, hr, hx⟩, he⟩)
    · exact Or.inl ⟨r, hr, hx.symm ▸ he⟩
    · exact Or.inr (Or.inl ⟨r, hr, hx.symm ▸ he⟩)
    · exact Or.inr (Or.inr ⟨r, hr, hx.symm ▸ he⟩)
  · rintro (⟨r, hr, he⟩ | ⟨r, hr, he⟩ | ⟨r, hr, he⟩)
    · exact Or.inl (Or.inl ⟨_, ⟨r, hr, rfl⟩, he⟩)
    · exact Or.inl (Or.inr ⟨_, ⟨r, hr, rfl⟩, he⟩)
    · exact Or.inr ⟨_, ⟨r, hr, rfl⟩, he⟩

/-- C2: `delete(id)` is all-or-nothing: after any execution either the
state is unchanged (aborted transaction, no acknowledgment), or exactly
the line items whose parent is `id` and the quotation row with that id are
gone, every other table is untouched, and the success acknowledgment is
returned.  No intermediate state is an outcome of the operation. -/
theorem delete_atomic (id : String) (commits : Bool) (st : DB) :
    ((SupplierQuoteStorage.delete id commits st).1 = st ∧
      (SupplierQuoteStorage.delete id commits st).2 = none) ∨
    ((SupplierQuoteStorage.delete id commits st).1.quotationItems
        = st.quotationItems.filter (fun it => !(it.quotationId == id)) ∧
      (SupplierQuoteStorage.delete id commits st).1.quotations
        = st.quotations.filter (fun q => !(q.id == id)) ∧
      (SupplierQuoteStorage.delete id commits st).1.customers = st.customers ∧
      (SupplierQuoteStorage.delete id commits st).1.suppliers = st.suppliers ∧
      (SupplierQuoteStorage.delete id commits st).1.salesOrders = st.salesOrders ∧
      (SupplierQuoteStorage.delete id commits st).1.customerAcceptances
        = st.customerAcceptances ∧
      (SupplierQuoteStorage.delete id commits st).1.purchaseOrders
        = st.purchaseOrders ∧
      (SupplierQuoteStorage.delete id commits st).2
        = some "Supplier quote deleted successfully") := by
  cases commits
  · exact Or.inl ⟨rfl, rfl⟩
  · exact Or.inr ⟨rfl, rfl, rfl, rfl, rfl, rfl, rfl, rfl⟩

/-- C9: the `search` parameter of both versions of
`SupplierQuoteStorage.list` is a no-op: the result is the same when the
search field is removed, because the two search blocks of the source
contain only commented-out clauses. -/
theorem list_search_noop (p : ListParams) (st : DB) :
    VersionA.SupplierQuoteStorage.list p st
        = VersionA.SupplierQuoteStorage.list { p with search := none } st ∧
    VersionB.SupplierQuoteStorage.list p st
        = VersionB.SupplierQuoteStorage.list { p with search := none } st := by
  cases p
  exact ⟨rfl, rfl⟩

/-- C10: a committed `delete(id)` always returns the same success
acknowledgment (whether or not the quotation exists), is idempotent in
both state and result, and — on a state whose line items all have a valid
parent, as the foreign-key constraint guarantees — deleting an id with no
quotation row leaves the state unchanged. -/
theorem delete_idempotent_and_ack (id : String) (st : DB)
    (hwf : ∀ it ∈ st.quotationItems, ∃ q ∈ st.quotations, q.id = it.quotationId) :
    (SupplierQuoteStorage.delete id true st).2
        = some "Supplier quote deleted successfully" ∧
    SupplierQuoteStorage.delete id true (SupplierQuoteStorage.delete id true st).1
        = SupplierQuoteStorage.delete id true st ∧
    ((∀ q ∈ st.quotations, q.id ≠ id) →
      (SupplierQuoteStorage.delete id true st).1 = st) := by
  refine ⟨rfl, ?_, ?_⟩
  · show (SupplierQuoteStorage.deleteTxBody id (SupplierQuoteStorage.deleteTxBody id st),
        (some "Supplier quote deleted successfully" : Option String)) = _
    rw [deleteTxBody_idem]
    rfl
  · intro hq
    show SupplierQuoteStorage.deleteTxBody id st = st
    refine deleteTxBody_eq_self id st hq ?_
    intro it hitm
    obtain ⟨q, hqm, hqe⟩ := hwf it hitm
    rw [← hqe]
    exact hq q hqm

/-- A concrete database for the delete witness: one quotation with one
line item. -/
def dbDel : DB :=
  ⟨[⟨"q1", "QT-1", some "c1", some "Draft", some 20, none⟩],
   [⟨"it1", "q1"⟩], [], [], [], [], []⟩

theorem delete_idempotent_and_ack_witness :
    (SupplierQuoteStorage.delete "q2" true dbDel).2
        = some "Supplier quote deleted successfully" ∧
    SupplierQuoteStorage.delete "q2" true (SupplierQuoteStorage.delete "q2" true dbDel).1
        = SupplierQuoteStorage.delete "q2" true dbDel ∧
    (SupplierQuoteStorage.delete "q2" true dbDel).1 = dbDel := by
  have h := delete_idempotent_and_ack "q2" dbDel (by decide)
  exact ⟨h.1, h.2.1, h.2.2 (by decide)⟩

/-! Concrete quotation, parameters and database for the Acme claims. -/

/-- A quotation whose notes carry the Acme supplier list. -/
def qAcme : Quotation :=
  ⟨"q1", "QT-1", none, none, none, some "Suppliers: Acme Corp, Beta Inc"⟩

/-- List parameters with no filter active. -/
def pNone : ListParams := ⟨none, none, none, none, none⟩

/-- A database holding the Acme quotation and a given supplier table. -/
def dbAcme (sups : List Supplier) : DB := ⟨[qAcme], [], [], sups, [], [], []⟩

/-- Supplier resolution on the Acme notes when nothing in the supplier
table fuzzy-matches the first extracted name. -/
theorem resolveSupplier_acme_unmatched (sups : List Supplier)
    (hf : sups.find? (fun s => VersionA.fuzzyMatches "Acme Corp" s) = none) :
    VersionA.resolveSupplier sups (some "Suppliers: Acme Corp, Beta Inc")
      = (some ⟨none, some "Acme Corp", none, none, none, "Supplier"⟩,
         some "Acme Corp") := by
  unfold VersionA.resolveSupplier
  rw [extract_acme]
  simp [hf]

/-- C3: with notes `"Suppliers: Acme Corp, Beta Inc"` and no supplier row
fuzzy-matching the extracted first name, the note-derived `list` produces
one row with `supplierName = "Acme Corp"` and a supplier object whose id
is null. -/
theorem listA_acme_unmatched (sups : List Supplier)
    (h : ∀ s ∈ sups, VersionA.fuzzyMatches "Acme Corp" s = false) :
    (VersionA.SupplierQuoteStorage.list pNone (dbAcme sups)).map
        (fun r => (r.supplierName, r.supplier.map VersionA.SupplierObj.id))
      = [(some "Acme Corp", some none)] := by
  have hf : sups.find? (fun s => VersionA.fuzzyMatches "Acme Corp" s) = none :=
    List.find?_eq_none.mpr (fun s hs => by simp [h s hs])
  simp [VersionA.SupplierQuoteStorage.list, dbAcme, qAcme, pNone,
    quotationFilter, activeStr, resolveSupplier_acme_unmatched sups hf]

theorem listA_acme_unmatched_witness :
    (VersionA.SupplierQuoteStorage.list pNone (dbAcme [])).map
        (fun r => (r.supplierName, r.supplier.map VersionA.SupplierObj.id))
      = [(some "Acme Corp", some none)] :=
  listA_acme_unmatched [] (by simp)

/-- C4: with the same notes and a supplier table row named
`"ACME CORP LTD"`, the extracted name `"Acme Corp"` matches that row
case-insensitively by substring, and the produced row carries that row's
id and `supplierName = "ACME CORP LTD"`. -/
theorem listA_acme_matched (sid : String) :
    (VersionA.SupplierQuoteStorage.list pNone
        (dbAcme [⟨sid, some "ACME CORP LTD", none, none, none⟩])).map
        (fun r => (r.supplierName, r.supplier.map VersionA.SupplierObj.id))
      = [(some "ACME CORP LTD", some (some sid))] := by
  rfl

/-! Row-shape lemmas for the two list versions. -/

/-- Every row of the note-derived list carries the supplier object and
supplier name produced by `resolveSupplier` on its own notes. -/
theorem mem_listA_shape (p : ListParams) (st : DB) (r : VersionA.ResultRow)
    (hr : r ∈ VersionA.SupplierQuoteStorage.list p st) :
    r.supplier = (VersionA.resolveSupplier st.suppliers r.quotation.notes).1 ∧
    r.supplierName = (VersionA.resolveSupplier st.suppliers r.quotation.notes).2 := by
  unfold VersionA.SupplierQuoteStorage.list at hr
  rw [List.mem_map] at hr
  obtain ⟨q, _, rfl⟩ := hr
  exact ⟨rfl, rfl⟩

/-- Every row of the join-derived list carries
`supplierName = supplier?.name || "Unknown Supplier"`. -/
theorem mem_listB_supplierName (p : ListParams) (st : DB) (r : VersionB.ResultRow)
    (hr : r ∈ VersionB.SupplierQuoteStorage.list p st) :
    r.supplierName
      = some (jsOrDefault (r.supplier.bind VersionA.CustomerObj.name)
          "Unknown Supplier") := by
  unfold VersionB.SupplierQuoteStorage.list at hr
  rw [List.mem_flatMap] at hr
  obtain ⟨q, _, hr⟩ := hr
  rw [List.mem_map] at hr
  obtain ⟨so, _, rfl⟩ := hr
  rfl

/-- Resolution output is a present string whenever every supplier row's
name is present. -/
theorem resolveSupplier_isSome (sups : List Supplier) (notes : Option String)
    (h : ∀ s ∈ sups, s.name.isSome = true) :
    ((VersionA.resolveSupplier sups notes).2).isSome = true := by
  rcases hx : VersionA.extractSupplierNames notes with _ | names
  · simp [VersionA.resolveSupplier, hx]
  · rcases hfind : sups.find? (fun s => VersionA.fuzzyMatches (names.head?.getD "") s)
      with _ | m
    · simp [VersionA.resolveSupplier, hx, List.headD_eq_head?, hfind]
    · simp only [VersionA.resolveSupplier, hx, List.headD_eq_head?, hfind]
      exact h m (List.mem_of_find?_eq_some hfind)

/-- When the notes yield no supplier names, resolution falls back to the
default. -/
theorem resolveSupplier_default (sups : List Supplier) (notes : Option String)
    (hx : VersionA.extractSupplierNames notes = none) :
    VersionA.resolveSupplier sups notes = (none, some "Unknown Supplier") := by
  simp [VersionA.resolveSupplier, hx]

/-- C5 counterexample: a quotation whose notes match the pattern together
with a supplier row whose name is null.  The fuzzy predicate accepts the
null-named row (`supplierName.includes(s.name?.toLowerCase() || '')` is
`includes('')`), and `supplierName = matchingSupplier.name` then stores a
null into the row, so the returned `supplierName` is not a non-null
string. -/
def dbNullName : DB := ⟨[qAcme], [], [], [⟨"S1", none, none, none, none⟩], [], [], []⟩

theorem supplierName_null_at_dbNullName :
    (VersionA.SupplierQuoteStorage.list pNone dbNullName).map
      VersionA.ResultRow.supplierName = [none] := by decide

/-- C5 (amended): every join-derived list row has a non-null
`supplierName`; every note-derived list row has a non-null `supplierName`
provided every supplier row's name is non-null (a null-named supplier row
can be fuzzy-matched and its null name copied into the row); and in both
versions `supplierName` is `"Unknown Supplier"` when no supplier
resolution succeeds (no extractable notes pattern, resp. no joined
supplier row). -/
theorem supplierName_nonnull_amended (p : ListParams) (st : DB) :
    (∀ r ∈ VersionB.SupplierQuoteStorage.list p st, r.supplierName.isSome = true) ∧
    ((∀ s ∈ st.suppliers, s.name.isSome = true) →
      ∀ r ∈ VersionA.SupplierQuoteStorage.list p st, r.supplierName.isSome = true) ∧
    (∀ r ∈ VersionA.SupplierQuoteStorage.list p st,
      VersionA.extractSupplierNames r.quotation.notes = none →
        r.supplierName = some "Unknown Supplier") ∧
    (∀ r ∈ VersionB.SupplierQuoteStorage.list p st,
      r.supplier = none → r.supplierName = some "Unknown Supplier") := by
  refine ⟨?_, ?_, ?_, ?_⟩
  · intro r hr
    rw [mem_listB_supplierName p st r hr]
    rfl
  · intro h r hr
    rw [(mem_listA_shape p st r hr).2]
    exact resolveSupplier_isSome _ _ h
  · intro r hr hx
    rw [(mem_listA_shape p st r hr).2, resolveSupplier_default _ _ hx]
  · intro r hr hsup
    rw [mem_listB_supplierName p st r hr, hsup]
    rfl

/-- A supplier row for the non-null witness. -/
def supAcme : Supplier := ⟨"S1", some "ACME CORP LTD", none, none, none⟩

/-- The single row the note-derived list produces on the witness
database. -/
def rowA5 : VersionA.ResultRow :=
  (VersionA.SupplierQuoteStorage.list pNone (dbAcme [supAcme])).headD
    ⟨qAcme, none, none, none, true⟩

theorem supplierName_nonnull_amended_witness :
    rowA5.supplierName.isSome = true := by
  exact (supplierName_nonnull_amended pNone (dbAcme [supAcme])).2.1
    (by decide) rowA5 (by decide)

/-- C6 counterexample: the quotation's customer id joins to a customer
row whose four name fields are all null.  The joined supplier row is
present, yet `supplierName` falls back to `"Unknown Supplier"`. -/
def qJoin : Quotation := ⟨"q1", "QT-1", some "c1", none, none, none⟩

def custNoName : Customer :=
  ⟨"c1", none, none, none, none, none, none, none, none, none⟩

def dbJoinNoName : DB := ⟨[qJoin], [], [custNoName], [], [], [], []⟩

theorem listB_default_with_present_supplier :
    (VersionB.SupplierQuoteStorage.list pNone dbJoinNoName).map
      (fun r => (r.supplierName, r.supplier.isSome))
      = [(some "Unknown Supplier", true)] := by decide

/-- C6 (amended): in the join-derived list, `supplierName` is
`"Unknown Supplier"` if the joined supplier row is absent, and also when
the row is present but its resolved display name (the `||` chain over
`name`, `customerName`, `companyName`, `fullName`) is null or empty;
whenever the joined row's resolved name is a non-empty string,
`supplierName` is that name. -/
theorem listB_supplierName_amended (p : ListParams) (st : DB) :
    ∀ r ∈ VersionB.SupplierQuoteStorage.list p st,
      (r.supplier = none → r.supplierName = some "Unknown Supplier") ∧
      (∀ c, r.supplier = some c → (c.name = none ∨ c.name = some "") →
        r.supplierName = some "Unknown Supplier") ∧
      (∀ c n, r.supplier = some c → c.name = some n → n ≠ "" →
        r.supplierName = some n) := by
  intro r hr
  have hs := mem_listB_supplierName p st r hr
  refine ⟨?_, ?_, ?_⟩
  · intro h
    rw [hs, h]
    rfl
  · intro c hc hname
    rw [hs, hc]
    rcases hname with h | h <;> simp [jsOrDefault, h]
  · intro c n hc hn hne
    rw [hs, hc]
    simp [jsOrDefault, hn, hne]

/-- A named customer row for the join witness. -/
def custNamed : Customer :=
  ⟨"c1", some "Gamma Traders", none, none, none, none, none, none, none, none⟩

def dbJoinNamed : DB := ⟨[qJoin], [], [custNamed], [], [], [], []⟩

/-- The single row the join-derived list produces on the witness
database. -/
def rowB6 : VersionB.ResultRow :=
  (VersionB.SupplierQuoteStorage.list pNone dbJoinNamed).headD
    ⟨qJoin, none, none, none, true⟩

theorem listB_supplierName_amended_witness :
    rowB6.supplierName = some "Gamma Traders" := by
  exact ((listB_supplierName_amended pNone dbJoinNamed) rowB6 (by decide)).2.2
    ⟨"c1", some "Gamma Traders", none, none, none, none⟩ "Gamma Traders"
    (by decide) (by decide) (by decide)

/-- C7: when the legacy `name`/`email` parameters are present, the
customer list route takes the legacy search path — the returned customers
come from `searchCustomers`, not from the general filter path — and the
reported pagination total is the aggregate total-customer statistic, not
a count of the legacy matches. -/
theorem legacy_search_path (α : Type) (st : CustomerStorage α) (q : CustomersQuery)
    (h : (strTruthy q.name || strTruthy q.email) = true) :
    (getCustomersHandler st q).pagination.total = st.totalCustomersStat ∧
    (getCustomersHandler st q).customers
      = st.searchCustomers q.name q.email (jsOrNum (jsParseIntOpt q.limit) 50)
          (jsOrNum (jsParseIntOpt q.offset) 0) := by
  unfold getCustomersHandler
  rw [if_pos h]
  exact ⟨rfl, rfl⟩

/-- A concrete storage whose legacy search result has a length different
from the aggregate statistic. -/
def stW : CustomerStorage Nat :=
  ⟨fun _ _ _ _ => [7], 42, fun _ _ _ => [], fun _ => 0⟩

/-- A legacy-search query: only `name` present. -/
def qLegacy : CustomersQuery :=
  ⟨none, none, none, none, none, none, some "alice", none⟩

theorem legacy_search_path_witness :
    (getCustomersHandler stW qLegacy).pagination.total = 42 ∧
    (getCustomersHandler stW qLegacy).customers = [7] := by
  have h := legacy_search_path Nat stW qLegacy (by decide)
  exact ⟨h.1, h.2⟩

/-- C8: for every request, the pagination object satisfies
`page = floor(offset / limit) + 1` and `pages = ceil(total / limit)`,
where `limit` is `50` and `offset` is `0` when the corresponding query
parameter is unparseable or absent. -/
theorem pagination_contract (α : Type) (st : CustomerStorage α) (q : CustomersQuery) :
    (getCustomersHandler st q).pagination.page
      = ⌊((jsOrNum (jsParseIntOpt q.offset) 0 : Int) : ℚ)
          / ((jsOrNum (jsParseIntOpt q.limit) 50 : Int) : ℚ)⌋ + 1 ∧
    (getCustomersHandler st q).pagination.pages
      = ⌈(((getCustomersHandler st q).pagination.total : Nat) : ℚ)
          / ((jsOrNum (jsParseIntOpt q.limit) 50 : Int) : ℚ)⌉ ∧
    (getCustomersHandler st q).pagination.limit
      = jsOrNum (jsParseIntOpt q.limit) 50 ∧
    (jsParseIntOpt q.limit = none → jsOrNum (jsParseIntOpt q.limit) 50 = 50) ∧
    (jsParseIntOpt q.offset = none → jsOrNum (jsParseIntOpt q.offset) 0 = 0) := by
  refine ⟨?_, ?_, ?_, fun h => by rw [h]; rfl, fun h => by rw [h]; rfl⟩ <;>
    cases hb : (strTruthy q.name || strTruthy q.email) <;>
      simp [getCustomersHandler, hb, jsMathFloorDiv, jsMathCeilDiv]

/-- A query with every parameter absent. -/
def qEmptyQ : CustomersQuery := ⟨none, none, none, none, none, none, none, none⟩

theorem pagination_contract_witness :
    (getCustomersHandler stW qEmptyQ).pagination.page = 1 ∧
    (getCustomersHandler stW qEmptyQ).pagination.limit = 50 ∧
    jsOrNum (jsParseIntOpt qEmptyQ.limit) 50 = 50 ∧
    jsOrNum (jsParseIntOpt qEmptyQ.offset) 0 = 0 := by
  have h := pagination_contract Nat stW qEmptyQ
  refine ⟨?_, ?_, h.2.2.2.1 rfl, h.2.2.2.2 rfl⟩
  · rw [h.1]
    norm_num [qEmptyQ, jsParseIntOpt, jsOrNum]
  · rw [h.2.2.1]
    rfl
